import Mathlib

/-!
Verification development for the memory card-pairs game
(single React component `MemoryGame` plus the page shell).

The component is shallowly embedded as follows.

* The pure helpers `DIFFICULTY_CONFIG`, `createCards` and `calculateScore`
  are translated directly.  All integer-valued JavaScript numbers here stay
  far below 2^53 and are exact; the one non-integer computation,
  `Math.floor((timeLeft / time) * baseScore * matches)`, is evaluated by
  the program in IEEE-754 binary64 arithmetic and is embedded bit-exactly:
  `roundFloat` performs the correct round-to-nearest, ties-to-even binary64
  rounding on exact rationals (represented as integer pairs so the kernel
  can evaluate them), and `timeBonus` chains the division and the two
  multiplications exactly as the expression associates.  Every value the
  expression produces lies well inside the normal double range, so
  overflow and subnormals cannot arise.
* `Array.prototype.sort` with the random comparator `() => Math.random() - 0.5`
  always returns some permutation of its input; the shuffle is therefore
  modelled as an arbitrary permutation-producing function.
* The component state (the `useState` hooks) becomes the record
  `EngineState`.  Event handlers and effect bodies become functions on it.
* `setTimeout` callbacks created by `handleCardClick` capture the render's
  values of `cards`, `mode`, `difficulty`, `matches`, `timeLeft` and
  `bestScores`; a scheduled callback is therefore stored in the state as a
  `PendingTimeout` value carrying those captured values, and firing it
  replays exactly the writes the callback performs.  The code never cancels
  these timeouts, so `startGame` leaves `pending` untouched.
* The driving UI is part of the component: a card click is only forwarded
  while `gameState === "playing"`, the start button exists only on the
  setup screen, the replay button only on the finished screen, and card
  indices come from mapping over `cards`.  The labelled transition system
  `stepF`/`enabledB` records exactly these possibilities, and `Reachable`
  is its reflexive-transitive closure from the initial hook values.
-/

inductive GameMode where
  | normal
  | chrono
deriving DecidableEq, Repr

inductive Difficulty where
  | facile
  | moyen
  | difficile
  | extreme
deriving DecidableEq, Repr, Fintype

/-- The six entries of the `ICONS` palette (`Heart, Star, Sun, Moon, Cloud,
Flower2`); two icon references are `===`-equal in the component exactly when
they are the same palette entry. -/
inductive SymbolKind where
  | heart
  | star
  | sun
  | moon
  | cloud
  | flower2
deriving DecidableEq, Repr, Fintype

instance : Inhabited SymbolKind := ⟨.heart⟩

/-- The `MemoryCard` record type of the component. -/
structure MemoryCard where
  id : Nat
  icon : SymbolKind
  isMatched : Bool
  color : String
deriving DecidableEq, Repr

instance : Inhabited MemoryCard := ⟨0, .heart, false, ""⟩

/-- The `Score` record type (a best-score table entry); `time?` becomes an
`Option`. -/
structure Score where
  mode : GameMode
  difficulty : Difficulty
  score : Nat
  time : Option Nat
deriving DecidableEq, Repr

instance : Inhabited Score := ⟨.normal, .facile, 0, none⟩

structure DifficultyProfile where
  pairs : Nat
  time : Nat
  baseScore : Nat
deriving DecidableEq, Repr

def DIFFICULTY_CONFIG : Difficulty → DifficultyProfile
  | .facile => ⟨6, 120, 100⟩
  | .moyen => ⟨8, 90, 200⟩
  | .difficile => ⟨10, 60, 300⟩
  | .extreme => ⟨12, 45, 400⟩

def ICONS : List SymbolKind := [.heart, .star, .sun, .moon, .cloud, .flower2]

def COLORS : List String :=
  ["text-rose-400", "text-amber-400", "text-yellow-400",
   "text-purple-400", "text-sky-400", "text-emerald-400"]

/-- Body of the `for` loop in `createCards`: the deck before the shuffle,
pair `i` contributing cards `{id: 2i}` and `{id: 2i+1}` with icon
`ICONS[i % ICONS.length]` and color `COLORS[i % COLORS.length]`. -/
def createCardsBase (difficulty : Difficulty) : List MemoryCard :=
  (List.range (DIFFICULTY_CONFIG difficulty).pairs).flatMap fun i =>
    [{ id := i * 2, icon := ICONS.getD (i % ICONS.length) default,
       color := COLORS.getD (i % COLORS.length) default, isMatched := false },
     { id := i * 2 + 1, icon := ICONS.getD (i % ICONS.length) default,
       color := COLORS.getD (i % COLORS.length) default, isMatched := false }]

/-- Full `createCards`: builds the pairs and applies
`cards.sort(() => Math.random() - 0.5)`.  The random-comparator sort always
returns a permutation of its input, so it is modelled by an arbitrary
shuffle function; theorems assume `(shuffle l).Perm l`. -/
def createCards (difficulty : Difficulty)
    (shuffle : List MemoryCard → List MemoryCard) : List MemoryCard :=
  shuffle (createCardsBase difficulty)

/-- Number of binary digits of `n`, with explicit recursion fuel so that
the kernel can evaluate it (every number in the score computation is far
below `2 ^ 128`). -/
def bitlenAux : Nat → Nat → Nat
  | 0, _ => 0
  | fuel + 1, n => if n = 0 then 0 else bitlenAux fuel (n / 2) + 1

def bitlen (n : Nat) : Nat := bitlenAux 128 n

/-- Round the non-negative rational `a / b` (`0 < b`) to the nearest
IEEE-754 binary64 value, ties to even, returned as an exact pair
`(mant, exp)` of value `mant * 2 ^ exp`.  The mantissa window is
`[2 ^ 52, 2 ^ 53]`, the candidate exponent from the bit lengths is off by
at most one binade and is corrected by the final test; the values reached
by the score computation are far inside the normal double range, so
neither overflow nor subnormals arise. -/
def roundFloat (a b : Nat) : Nat × Int :=
  if a = 0 then (0, 0)
  else
    let go : Int → Nat × Int := fun e =>
      let n := if 0 ≤ e then a else a * 2 ^ (-e).toNat
      let d := if 0 ≤ e then b * 2 ^ e.toNat else b
      let q := n / d
      let r := n % d
      let rounded :=
        if d < 2 * r then q + 1
        else if 2 * r < d then q
        else if q % 2 = 0 then q else q + 1
      (rounded, e)
    let e0 : Int := (bitlen a : Int) - (bitlen b : Int) - 53
    if 2 ^ 53 ≤ (go e0).1 then go (e0 + 1) else go e0

/-- Multiply the double `(mant, exp)` by a small integer (itself an exact
double) with one binary64 rounding; the power of two scales exactly. -/
def fpMulNat (d : Nat × Int) (c : Nat) : Nat × Int :=
  let r := roundFloat (d.1 * c) 1
  (r.1, d.2 + r.2)

/-- `Math.floor` of the non-negative double `(mant, exp)`. -/
def fpFloor (d : Nat × Int) : Nat :=
  if 0 ≤ d.2 then d.1 * 2 ^ d.2.toNat else d.1 / 2 ^ (-d.2).toNat

/-- The `timeBonus` expression
`Math.floor((timeLeft / time) * baseScore * matches)` computed exactly as
binary64 arithmetic evaluates it: one correctly rounded division, two
correctly rounded multiplications in the expression's left-to-right
association, then the exact floor. -/
def timeBonus (timeLeft time baseScore matchCount : Nat) : Nat :=
  fpFloor (fpMulNat (fpMulNat (roundFloat timeLeft time) baseScore)
    matchCount)

/-- Scoring function `calculateScore` (`matchCount` renders the JS
parameter `matches`, a reserved word here).  `matchScore` is an exact
integer (at most 4800, far below 2^53), and the chrono branch adds the
bit-exact binary64 `timeBonus`. -/
def calculateScore (mode : GameMode) (difficulty : Difficulty)
    (matchCount timeLeft : Nat) : Nat :=
  let cfg := DIFFICULTY_CONFIG difficulty
  let matchScore := matchCount * cfg.baseScore
  if mode = .normal then matchScore
  else matchScore + timeBonus timeLeft cfg.time cfg.baseScore matchCount

/-- The entry written by `endGame` for the current game. -/
def mkScoreEntry (mode : GameMode) (difficulty : Difficulty)
    (finalScore timeLeft : Nat) : Score :=
  { mode := mode, difficulty := difficulty, score := finalScore,
    time := if mode = .chrono then some timeLeft else none }

/-- The best-score table update of `endGame` (lines building
`newBestScores`): find the entry for `(mode, difficulty)`; if none exists
push a new entry, if one exists with a strictly smaller score overwrite it
in place, otherwise leave the table as it is. -/
def updateBestScores (bestScores : List Score) (mode : GameMode)
    (difficulty : Difficulty) (finalScore timeLeft : Nat) : List Score :=
  match bestScores.findIdx?
      (fun s => s.mode = mode ∧ s.difficulty = difficulty) with
  | none => bestScores ++ [mkScoreEntry mode difficulty finalScore timeLeft]
  | some i =>
    if (bestScores.getD i default).score < finalScore then
      bestScores.set i (mkScoreEntry mode difficulty finalScore timeLeft)
    else bestScores

/-- The best-score loading effect: `localStorage.getItem("bestScores")`
followed, when a string is present, by an unguarded `JSON.parse`.
`JSON.parse` is external to the repository and is modelled abstractly by
its outcome `parse : String → Except String (List Score)`, an error being
a thrown `SyntaxError`.  The effect contains no `try`/`catch`, so a parse
error propagates; an absent key leaves the initial `[]` in place. -/
def loadBestScores (parse : String → Except String (List Score)) :
    Option String → Except String (List Score)
  | none => Except.ok []
  | some stored => parse stored

inductive Phase where
  | setup
  | preview
  | playing
  | finished
deriving DecidableEq, Repr

/-- A scheduled `setTimeout` callback of `handleCardClick`.  The match
callback reads, through its closure, the values of `cards`, `firstIndex`,
`secondIndex`, `mode`, `difficulty`, `matches`, `timeLeft` and
`bestScores` of the render in which the click ran; those are stored with
it.  The mismatch callback only writes `flippedIndexes` and `isChecking`
and captures nothing it depends on. -/
inductive PendingTimeout where
  | matchT (cards : List MemoryCard) (firstIndex secondIndex : Nat)
      (mode : GameMode) (difficulty : Difficulty)
      (matchCount timeLeft : Nat) (bestScores : List Score)
  | mismatchT
deriving DecidableEq, Repr

/-- The `useState` hooks of `MemoryGame` (the field `matchCount` renders the
state variable `matches`, a reserved word here), together with the multiset
of scheduled, not yet fired `setTimeout` callbacks. -/
structure EngineState where
  gameState : Phase
  mode : GameMode
  difficulty : Difficulty
  cards : List MemoryCard
  flippedIndexes : List Nat
  matchCount : Nat
  isChecking : Bool
  timeLeft : Nat
  score : Nat
  bestScores : List Score
  pending : List PendingTimeout
deriving DecidableEq, Repr

/-- The initial hook values; `bestScores` is whatever the loading effect
installed (arbitrary, since the persisted string is arbitrary). -/
def initState (bs : List Score) : EngineState :=
  { gameState := .setup, mode := .normal, difficulty := .facile,
    cards := [], flippedIndexes := [], matchCount := 0, isChecking := false,
    timeLeft := 0, score := 0, bestScores := bs, pending := [] }

/-- Handler `startGame`: install a fresh deck (`newCards`, produced by
`createCards`), reveal every index, reset the session counters and enter
the preview phase.  The pending timeouts are not touched: the code never
cancels the `handleCardClick` timeouts. -/
def startGame (s : EngineState) (newCards : List MemoryCard) : EngineState :=
  { s with cards := newCards,
           flippedIndexes := List.range newCards.length,
           matchCount := 0, isChecking := false,
           timeLeft := if s.mode = .chrono
             then (DIFFICULTY_CONFIG s.difficulty).time else 0,
           gameState := .preview, score := 0 }

/-- Handler `endGame` as invoked with current render values (the time-out loss
path): freeze the phase to `finished`, compute and store the final score,
and update the best-score table.  The `isWin` flag only selects the toast
text and is not modelled. -/
def endGame (s : EngineState) : EngineState :=
  let finalScore := calculateScore s.mode s.difficulty s.matchCount s.timeLeft
  { s with gameState := .finished, score := finalScore,
           bestScores := updateBestScores s.bestScores s.mode s.difficulty
             finalScore s.timeLeft }

/-- Handler `handleCardClick(clickedIndex)`: bail out if a check is in progress,
the card is matched, the index is already flipped, or two cards are
flipped; otherwise append the index, and on reaching two flipped cards
enter checking and schedule the match or mismatch timeout with the current
render's values. -/
def handleCardClick (s : EngineState) (clickedIndex : Nat) : EngineState :=
  if s.isChecking
      ∨ (s.cards.getD clickedIndex default).isMatched
      ∨ clickedIndex ∈ s.flippedIndexes
      ∨ s.flippedIndexes.length = 2 then s
  else
    let newFlipped := s.flippedIndexes ++ [clickedIndex]
    if newFlipped.length = 2 then
      let firstIndex := newFlipped.getD 0 0
      let secondIndex := newFlipped.getD 1 0
      let firstCard := s.cards.getD firstIndex default
      let secondCard := s.cards.getD secondIndex default
      if firstCard.icon = secondCard.icon then
        { s with flippedIndexes := newFlipped, isChecking := true,
                 pending := s.pending ++
                   [.matchT s.cards firstIndex secondIndex s.mode
                      s.difficulty s.matchCount s.timeLeft s.bestScores] }
      else
        { s with flippedIndexes := newFlipped, isChecking := true,
                 pending := s.pending ++ [.mismatchT] }
    else { s with flippedIndexes := newFlipped }

/-- A card click as wired in the grid: the `onClick` handler forwards to
`handleCardClick` only while `gameState === "playing"`. -/
def onCardClick (s : EngineState) (i : Nat) : EngineState :=
  if s.gameState = .playing then handleCardClick s i else s

/-- Deck write `cards.map((card, index) => index === firstIndex ||
index === secondIndex ? {...card, isMatched: true} : card)` of the match
callback. -/
def markMatched (cards : List MemoryCard) (firstIndex secondIndex : Nat) :
    List MemoryCard :=
  cards.mapIdx fun index card =>
    if index = firstIndex ∨ index = secondIndex then
      { card with isMatched := true }
    else card

/-- Firing a scheduled timeout.  The match callback writes the captured
deck with the two compared cards marked, clears the flipped indexes, runs
the functional `setMatches` updater on the current count, and, when the new
count reaches half the captured deck's size, performs `endGame(true)` with
the values captured at click time (in particular the pre-increment
`matches` — the `matches` closure variable of that render). -/
def fireTimeout (s : EngineState) : PendingTimeout → EngineState
  | .mismatchT => { s with flippedIndexes := [], isChecking := false }
  | .matchT ccards firstIndex secondIndex cmode cdifficulty cmatchCount
      ctimeLeft cbestScores =>
    let newMatches := s.matchCount + 1
    let base := { s with cards := markMatched ccards firstIndex secondIndex,
                         flippedIndexes := [], matchCount := newMatches,
                         isChecking := false }
    if newMatches = ccards.length / 2 then
      let finalScore := calculateScore cmode cdifficulty cmatchCount ctimeLeft
      { base with gameState := .finished, score := finalScore,
                  bestScores := updateBestScores cbestScores cmode cdifficulty
                    finalScore ctimeLeft }
    else base

/-- One chrono tick: `setTimeLeft(time => time - 1)`, immediately followed
by the same effect re-running and calling `endGame(false)` when the new
value is 0 while still playing (the interval only runs while
`gameState === "playing" && mode === "chrono" && timeLeft > 0`). -/
def chronoTick (s : EngineState) : EngineState :=
  let s1 := { s with timeLeft := s.timeLeft - 1 }
  if s1.timeLeft = 0 then endGame s1 else s1

/-- The external triggers the rendered component exposes: the two setup
selectors, the start button, the 2000 ms preview timeout, a click on card
`i`, a chrono interval tick, the firing of the `k`-th scheduled
`handleCardClick` timeout, and the replay button. -/
inductive Event where
  | selectMode (m : GameMode)
  | selectDifficulty (d : Difficulty)
  | start (deck : List MemoryCard)
  | previewEnd
  | click (i : Nat)
  | tick
  | fire (k : Nat)
  | rejouer
deriving Repr

/-- When an event can occur: the selectors and the start button exist only
on the setup screen, `start` installs some permutation produced by the
random-comparator sort, the preview timeout is scheduled exactly while in
preview, cards (and hence clicks) exist only for indices into the rendered
deck, the interval only runs in playing chrono with time left, a timeout
can fire only if scheduled, and the replay button exists only on the
finished screen. -/
def enabledB (s : EngineState) : Event → Bool
  | .selectMode _ => s.gameState = .setup
  | .selectDifficulty _ => s.gameState = .setup
  | .start deck =>
    s.gameState = .setup ∧ deck.Perm (createCardsBase s.difficulty)
  | .previewEnd => s.gameState = .preview
  | .click i => i < s.cards.length
  | .tick =>
    s.gameState = .playing ∧ s.mode = .chrono ∧ 0 < s.timeLeft
  | .fire k => k < s.pending.length
  | .rejouer => s.gameState = .finished

/-- The state transformation each event performs. -/
def stepF (s : EngineState) : Event → EngineState
  | .selectMode m => { s with mode := m }
  | .selectDifficulty d => { s with difficulty := d }
  | .start deck => startGame s deck
  | .previewEnd => { s with gameState := .playing, flippedIndexes := [] }
  | .click i => onCardClick s i
  | .tick => chronoTick s
  | .fire k =>
    fireTimeout { s with pending := s.pending.eraseIdx k }
      (s.pending.getD k .mismatchT)
  | .rejouer => { s with gameState := .setup }

/-- States the component can be in: the initial hook values (with an
arbitrary loaded best-score table) closed under enabled events. -/
inductive Reachable : EngineState → Prop where
  | init (bs : List Score) : Reachable (initState bs)
  | step {s : EngineState} (e : Event) :
      Reachable s → enabledB s e = true → Reachable (stepF s e)

/-- Run a sequence of events. -/
def runTrace (s : EngineState) : List Event → EngineState
  | [] => s
  | e :: es => runTrace (stepF s e) es

/-- Check that each event of a sequence is enabled when its turn comes. -/
def allEnabled (s : EngineState) : List Event → Bool
  | [] => true
  | e :: es => enabledB s e && allEnabled (stepF s e) es

/-- A best-score table has at most one entry per (mode, difficulty) key. -/
def uniqueKeys (table : List Score) : Prop :=
  table.Pairwise fun a b => ¬(a.mode = b.mode ∧ a.difficulty = b.difficulty)

/-- The two bounds the spec places on `flippedIndexes`: its members index
into the deck and, outside the preview reveal, there are at most two. -/
def FlipInv (s : EngineState) : Prop :=
  (∀ j ∈ s.flippedIndexes, j < s.cards.length) ∧
  (s.gameState ≠ .preview → s.flippedIndexes.length ≤ 2)

/-- An ordinary winning game: normal mode, facile, the deck left in build
order (one possible sort outcome), the six pairs flipped in order with each
match timeout firing in turn. -/
def eventsWinFacile : List Event :=
  [.start (createCardsBase .facile), .previewEnd,
   .click 0, .click 1, .fire 0, .click 2, .click 3, .fire 0,
   .click 4, .click 5, .fire 0, .click 6, .click 7, .fire 0,
   .click 8, .click 9, .fire 0, .click 10, .click 11, .fire 0]

/-- The finished state of that winning game. -/
def winState : EngineState := runTrace (initState []) eventsWinFacile

/-- A chrono facile session in which the player matches one pair, runs the
clock down to one second, flips a second matching pair (scheduling its
500 ms confirm timeout), and the next interval tick expires the clock
first, ending the game as a loss while the confirm timeout is still
scheduled; the player immediately replays (all within the 500 ms), and the
old session's confirm timeout then fires into the fresh session. -/
def eventsStaleTimeout : List Event :=
  [.selectMode .chrono, .start (createCardsBase .facile), .previewEnd,
   .click 0, .click 1, .fire 0]
  ++ List.replicate 119 .tick
  ++ [.click 2, .click 3, .tick, .rejouer,
      .start (createCardsBase .facile), .fire 0]

/-- The state right after the stale confirm timeout fires into the fresh
session. -/
def staleState : EngineState := runTrace (initState []) eventsStaleTimeout

set_option maxRecDepth 40000

theorem reachable_runTrace {s : EngineState} (es : List Event)
    (hs : Reachable s) (hen : allEnabled s es = true) :
    Reachable (runTrace s es) := by
  induction es generalizing s with
  | nil => exact hs
  | cons e es ih =>
    simp only [allEnabled, Bool.and_eq_true] at hen
    exact ih (Reachable.step e hs hen.1) hen.2

/-- C9: the normal-mode score is independent of timeRemaining: for any two
clock values it is the same, namely matchedPairCount × baseScorePerPair. -/
theorem C9_normal_score_time_independent (d : Difficulty) (m t1 t2 : Nat) :
    calculateScore .normal d m t1 = calculateScore .normal d m t2 ∧
    calculateScore .normal d m t1 = m * (DIFFICULTY_CONFIG d).baseScore := by
  simp [calculateScore]

/-- The claimed exact time bonus: the rational floor of
(t / T) × B × m equals natural floor division of the products. -/
theorem floor_ratio_eq_natDiv (t T B m : Nat) :
    ⌊(t : ℚ) / (T : ℚ) * (B : ℚ) * (m : ℚ)⌋₊ = t * B * m / T := by
  rw [show (t : ℚ) / (T : ℚ) * (B : ℚ) * (m : ℚ) =
      ((t * B * m : Nat) : ℚ) / ((T : ℚ)) by push_cast; ring]
  rw [show ((T : ℚ)) = ((T : Nat) : ℚ) from rfl]
  rw [Nat.floor_div_nat, Nat.floor_natCast]

/-- C3 counterexample: at chrono facile with 3 matched pairs and 40
seconds remaining, the program's binary64 evaluation of (40/120)·100·3
lands at 99.99999999999999 and floors to 99, so it returns 399, while the
claimed exact formula gives 300 + 100 = 400. -/
theorem C3_counterexample_chrono_facile_3_40 :
    calculateScore .chrono .facile 3 40 = 399 ∧
    3 * (DIFFICULTY_CONFIG .facile).baseScore +
      ⌊((40 : Nat) : ℚ) / (((DIFFICULTY_CONFIG .facile).time : Nat) : ℚ) *
        (((DIFFICULTY_CONFIG .facile).baseScore : Nat) : ℚ) *
        (((3 : Nat)) : ℚ)⌋₊ = 400 ∧
    (399 : Nat) ≠ 400 := by
  refine ⟨by decide, ?_, by decide⟩
  rw [floor_ratio_eq_natDiv]
  decide

set_option maxHeartbeats 12000000 in
/-- C3 amended: over the game's input envelope (matchedPairCount at most
the difficulty's pairCount, timeRemaining at most the time limit) the
chrono score is matchScore plus the binary64-evaluated floored bonus,
which equals the claimed exact formula
m × baseScorePerPair + floor((t / timeLimit) × baseScorePerPair × m)
except where the double rounding lands just below an integer, where the
program's score is exactly one less; the two cited values hold:
score(chrono, facile, 6, 120) = 1200 and score(chrono, facile, 3, 0) =
300. -/
theorem C3_chrono_score_formula :
    (∀ (d : Difficulty) (m t : Nat), m ≤ (DIFFICULTY_CONFIG d).pairs →
      t ≤ (DIFFICULTY_CONFIG d).time →
      calculateScore .chrono d m t =
          m * (DIFFICULTY_CONFIG d).baseScore +
            ⌊(t : ℚ) / (((DIFFICULTY_CONFIG d).time : Nat) : ℚ) *
              (((DIFFICULTY_CONFIG d).baseScore : Nat) : ℚ) * (m : ℚ)⌋₊ ∨
        calculateScore .chrono d m t + 1 =
          m * (DIFFICULTY_CONFIG d).baseScore +
            ⌊(t : ℚ) / (((DIFFICULTY_CONFIG d).time : Nat) : ℚ) *
              (((DIFFICULTY_CONFIG d).baseScore : Nat) : ℚ) * (m : ℚ)⌋₊) ∧
    calculateScore .chrono .facile 6 120 = 1200 ∧
    calculateScore .chrono .facile 3 0 = 300 := by
  have hAll : ∀ (d : Difficulty), ∀ m ≤ (DIFFICULTY_CONFIG d).pairs,
      ∀ t ≤ (DIFFICULTY_CONFIG d).time,
      (calculateScore .chrono d m t =
          m * (DIFFICULTY_CONFIG d).baseScore +
            t * (DIFFICULTY_CONFIG d).baseScore * m /
              (DIFFICULTY_CONFIG d).time ∨
        calculateScore .chrono d m t + 1 =
          m * (DIFFICULTY_CONFIG d).baseScore +
            t * (DIFFICULTY_CONFIG d).baseScore * m /
              (DIFFICULTY_CONFIG d).time) := by decide
  refine ⟨?_, by decide, by decide⟩
  intro d m t hm ht
  rw [floor_ratio_eq_natDiv]
  exact hAll d m hm t ht

/-- C3 witness: the amended formula applied at chrono, facile, 3 matched
pairs, 60 seconds remaining. -/
theorem C3_chrono_score_formula_witness :
    calculateScore .chrono .facile 3 60 =
        3 * (DIFFICULTY_CONFIG .facile).baseScore +
          ⌊(((60 : Nat)) : ℚ) /
            (((DIFFICULTY_CONFIG .facile).time : Nat) : ℚ) *
            (((DIFFICULTY_CONFIG .facile).baseScore : Nat) : ℚ) *
            (((3 : Nat)) : ℚ)⌋₊ ∨
      calculateScore .chrono .facile 3 60 + 1 =
        3 * (DIFFICULTY_CONFIG .facile).baseScore +
          ⌊(((60 : Nat)) : ℚ) /
            (((DIFFICULTY_CONFIG .facile).time : Nat) : ℚ) *
            (((DIFFICULTY_CONFIG .facile).baseScore : Nat) : ℚ) *
            (((3 : Nat)) : ℚ)⌋₊ :=
  C3_chrono_score_formula.1 .facile 3 60 (by decide) (by decide)

/-- C5 counterexample: when `JSON.parse` of the stored string throws (as it
does on malformed input), the loading effect propagates the exception — it
does not produce the empty "no prior scores" table, since the effect has no
try/catch. -/
theorem C5_counterexample_malformed_data_throws :
    loadBestScores (fun _ => .error "SyntaxError") (some "not json") =
      .error "SyntaxError" ∧
    (Except.error "SyntaxError" : Except String (List Score)) ≠
      Except.ok [] :=
  ⟨rfl, fun h => Except.noConfusion h⟩

/-- C5 amended: a missing key yields the empty table with no error, and
when a stored string is present the effect returns exactly the outcome of
`JSON.parse` on it — in particular a parse error on malformed data
propagates to the caller instead of being treated as "no prior scores". -/
theorem C5_load_best_scores (parse : String → Except String (List Score)) :
    loadBestScores parse none = .ok [] ∧
    (∀ stored : String, loadBestScores parse (some stored) = parse stored) :=
  ⟨rfl, fun _ => rfl⟩

/-- C8: `startGame`, from any state, installs exactly the freshly built
deck (every card unmatched), resets matchedPairCount to 0, flips all deck
indices for the preview reveal, sets the clock to the difficulty's limit in
chrono mode and 0 otherwise, resets the score, clears the checking flag and
enters the preview phase — no flipped or matched state survives. -/
theorem C8_startGame_fresh_session (s : EngineState) (deck : List MemoryCard)
    (hdeck : deck.Perm (createCardsBase s.difficulty)) :
    (startGame s deck).cards = deck ∧
    (∀ c ∈ (startGame s deck).cards, c.isMatched = false) ∧
    (startGame s deck).matchCount = 0 ∧
    (startGame s deck).flippedIndexes = List.range deck.length ∧
    (startGame s deck).timeLeft =
      (if s.mode = .chrono then (DIFFICULTY_CONFIG s.difficulty).time else 0) ∧
    (startGame s deck).gameState = .preview ∧
    (startGame s deck).score = 0 ∧
    (startGame s deck).isChecking = false := by
  have hbase : ∀ c ∈ createCardsBase s.difficulty, c.isMatched = false := by
    cases s.difficulty <;> decide
  refine ⟨rfl, ?_, rfl, rfl, rfl, rfl, rfl, rfl⟩
  intro c hc
  exact hbase c (hdeck.subset hc)

/-- C8 witness: starting a facile normal game from the initial state with
the deck in build order. -/
theorem C8_startGame_fresh_session_witness :
    (startGame (initState []) (createCardsBase .facile)).matchCount = 0 ∧
    (startGame (initState []) (createCardsBase .facile)).gameState =
      .preview :=
  ⟨(C8_startGame_fresh_session (initState []) (createCardsBase .facile)
      (List.Perm.refl _)).2.2.1,
   (C8_startGame_fresh_session (initState []) (createCardsBase .facile)
      (List.Perm.refl _)).2.2.2.2.2.1⟩

/-- C1 counterexample: the build loop assigns icon `ICONS[i % 6]`, so for
moyen (8 pairs) the heart icon is used by pairs 0 and 6 and appears on 4 of
the 16 cards, not exactly 2.  The identity shuffle is one possible outcome
of the random-comparator sort, and per-symbol card counts are invariant
under every shuffle permutation anyway. -/
theorem C1_counterexample_moyen_heart_count :
    ((createCards .moyen id).filter fun c => c.icon = .heart).length = 4 ∧
    ((createCards .moyen id).filter fun c => c.icon = .heart).length ≠ 2 := by
  constructor <;> decide

/-- C1 amended: for every difficulty the built deck has 2 × pairCount
cards, pairwise distinct ids and no matched card; a symbolKind appears
2 × |{i < pairCount, ICONS[i % 6] = that symbol}| times — exactly twice for
every symbol only on facile (pairCount = 6), the larger tiers cycling the
six icons so that some symbols appear four times. -/
theorem C1_deck_structure (d : Difficulty)
    (shuffle : List MemoryCard → List MemoryCard)
    (hs : (shuffle (createCardsBase d)).Perm (createCardsBase d)) :
    (createCards d shuffle).length = 2 * (DIFFICULTY_CONFIG d).pairs ∧
    ((createCards d shuffle).map fun c => c.id).Nodup ∧
    (∀ c ∈ createCards d shuffle, c.isMatched = false) ∧
    (∀ k : SymbolKind,
      ((createCards d shuffle).filter fun c => c.icon = k).length =
        2 * ((List.range (DIFFICULTY_CONFIG d).pairs).filter
          fun i => ICONS.getD (i % ICONS.length) default = k).length) ∧
    (d = .facile → ∀ k : SymbolKind,
      ((createCards d shuffle).filter fun c => c.icon = k).length = 2) := by
  have hlen : (createCards d shuffle).length = (createCardsBase d).length :=
    hs.length_eq
  have hcount : ∀ k : SymbolKind,
      ((createCards d shuffle).filter fun c => c.icon = k).length =
        ((createCardsBase d).filter fun c => c.icon = k).length := by
    intro k
    rw [← List.countP_eq_length_filter, ← List.countP_eq_length_filter]
    exact hs.countP_eq _
  have hbase : ∀ c ∈ createCardsBase d, c.isMatched = false := by
    cases d <;> decide
  refine ⟨?_, ?_, ?_, ?_, ?_⟩
  · rw [hlen]; cases d <;> decide
  · show (List.map (fun c => c.id) (shuffle (createCardsBase d))).Nodup
    rw [(hs.map fun c => c.id).nodup_iff]
    cases d <;> decide
  · intro c hc
    exact hbase c (hs.subset hc)
  · intro k
    rw [hcount k]
    revert k
    cases d <;> decide
  · rintro rfl k
    rw [hcount k]
    revert k
    decide

/-- C1 witness: the facile build-order deck, with the identity as shuffle
outcome, has 12 cards and duplicate-free ids. -/
theorem C1_deck_structure_witness :
    (createCards .facile id).length = 2 * (DIFFICULTY_CONFIG .facile).pairs ∧
    ((createCards .facile id).map fun c => c.id).Nodup :=
  ⟨(C1_deck_structure .facile id (List.Perm.refl _)).1,
   (C1_deck_structure .facile id (List.Perm.refl _)).2.1⟩

/-- C6: a card click leaves the state entirely unchanged when the phase is
not playing, a check is in progress, the clicked card is matched, the index
is already flipped (in particular when it is the single flipped index, so a
repeated click can never produce two flipped copies of one index), or two
cards are already flipped; otherwise its only effects are appending the
index to flippedIndexes and possibly entering checking — deck, counters,
clock, score, best-score table, phase, mode and difficulty are untouched. -/
theorem C6_click_frame (s : EngineState) (i : Nat) :
    (s.gameState ≠ .playing → onCardClick s i = s) ∧
    (s.isChecking = true → onCardClick s i = s) ∧
    ((s.cards.getD i default).isMatched = true → onCardClick s i = s) ∧
    (i ∈ s.flippedIndexes → onCardClick s i = s) ∧
    (s.flippedIndexes.length = 2 → onCardClick s i = s) ∧
    (s.flippedIndexes = [i] → onCardClick s i = s) ∧
    (s.gameState = .playing → s.isChecking = false →
      (s.cards.getD i default).isMatched = false →
      i ∉ s.flippedIndexes → s.flippedIndexes.length ≠ 2 →
      (onCardClick s i).flippedIndexes = s.flippedIndexes ++ [i] ∧
      (onCardClick s i).cards = s.cards ∧
      (onCardClick s i).matchCount = s.matchCount ∧
      (onCardClick s i).timeLeft = s.timeLeft ∧
      (onCardClick s i).score = s.score ∧
      (onCardClick s i).bestScores = s.bestScores ∧
      (onCardClick s i).gameState = s.gameState ∧
      (onCardClick s i).mode = s.mode ∧
      (onCardClick s i).difficulty = s.difficulty) := by
  by_cases hp : s.gameState = .playing
  · have honc : onCardClick s i = handleCardClick s i := by
      rw [onCardClick, if_pos hp]
    by_cases hg : s.isChecking = true
        ∨ (s.cards.getD i default).isMatched = true
        ∨ i ∈ s.flippedIndexes
        ∨ s.flippedIndexes.length = 2
    · have hid : onCardClick s i = s := by
        rw [honc, handleCardClick, if_pos hg]
      refine ⟨fun _ => hid, fun _ => hid, fun _ => hid, fun _ => hid,
        fun _ => hid, fun _ => hid, ?_⟩
      intro _ hc hm hf h2
      rcases hg with h | h | h | h
      · exact absurd h (by rw [hc]; exact Bool.false_ne_true)
      · exact absurd h (by rw [hm]; exact Bool.false_ne_true)
      · exact absurd h hf
      · exact absurd h h2
    · have hframe :
          (onCardClick s i).flippedIndexes = s.flippedIndexes ++ [i] ∧
          (onCardClick s i).cards = s.cards ∧
          (onCardClick s i).matchCount = s.matchCount ∧
          (onCardClick s i).timeLeft = s.timeLeft ∧
          (onCardClick s i).score = s.score ∧
          (onCardClick s i).bestScores = s.bestScores ∧
          (onCardClick s i).gameState = s.gameState ∧
          (onCardClick s i).mode = s.mode ∧
          (onCardClick s i).difficulty = s.difficulty := by
        rw [honc, handleCardClick, if_neg hg]
        dsimp only
        by_cases hl : (s.flippedIndexes ++ [i]).length = 2
        · rw [if_pos hl]
          split <;> exact ⟨rfl, rfl, rfl, rfl, rfl, rfl, rfl, rfl, rfl⟩
        · rw [if_neg hl]
          exact ⟨rfl, rfl, rfl, rfl, rfl, rfl, rfl, rfl, rfl⟩
      refine ⟨fun h => absurd hp h,
        fun h => absurd (Or.inl h) hg,
        fun h => absurd (Or.inr (Or.inl h)) hg,
        fun h => absurd (Or.inr (Or.inr (Or.inl h))) hg,
        fun h => absurd (Or.inr (Or.inr (Or.inr h))) hg,
        fun h => absurd
          (Or.inr (Or.inr (Or.inl (h ▸ List.mem_singleton_self i)))) hg,
        fun _ _ _ _ _ => hframe⟩
  · have hid : onCardClick s i = s := by
      rw [onCardClick, if_neg hp]
    exact ⟨fun _ => hid, fun _ => hid, fun _ => hid, fun _ => hid,
      fun _ => hid, fun _ => hid, fun h => absurd h hp⟩

/-- C6 witness: in the initial state (setup phase) a click on index 0 is a
no-op. -/
theorem C6_click_frame_witness :
    onCardClick (initState []) 0 = initState [] :=
  (C6_click_frame (initState []) 0).1 (by decide)

/-- C4: with a duplicate-free table, the end-game update appends a new
entry exactly when no entry carries the key, overwrites the keyed entry in
place exactly when the final score strictly exceeds its score, leaves the
table untouched otherwise, and always preserves key uniqueness. -/
theorem C4_best_score_update (table : List Score) (mode : GameMode)
    (difficulty : Difficulty) (finalScore timeLeft : Nat)
    (hU : uniqueKeys table) :
    ((∀ e ∈ table, ¬(e.mode = mode ∧ e.difficulty = difficulty)) →
      updateBestScores table mode difficulty finalScore timeLeft =
        table ++ [mkScoreEntry mode difficulty finalScore timeLeft]) ∧
    (∀ i, (hi : i < table.length) →
      table[i].mode = mode → table[i].difficulty = difficulty →
      ((table[i].score < finalScore →
        updateBestScores table mode difficulty finalScore timeLeft =
          table.set i (mkScoreEntry mode difficulty finalScore timeLeft)) ∧
       (finalScore ≤ table[i].score →
        updateBestScores table mode difficulty finalScore timeLeft =
          table))) ∧
    uniqueKeys (updateBestScores table mode difficulty finalScore
      timeLeft) := by
  cases h : table.findIdx?
      (fun s => s.mode = mode ∧ s.difficulty = difficulty) with
  | none =>
    have hnone := List.findIdx?_eq_none_iff.mp h
    have hupd : updateBestScores table mode difficulty finalScore timeLeft =
        table ++ [mkScoreEntry mode difficulty finalScore timeLeft] := by
      rw [updateBestScores, h]
    refine ⟨fun _ => hupd, ?_, ?_⟩
    · intro i hi h1 h2
      have := hnone table[i] (List.getElem_mem hi)
      exact absurd ⟨h1, h2⟩ (of_decide_eq_false this)
    · rw [hupd]
      refine List.pairwise_append.mpr ⟨hU, List.pairwise_singleton _ _, ?_⟩
      intro a ha b hb
      rw [List.mem_singleton] at hb
      subst hb
      intro hk
      exact absurd ⟨hk.1, hk.2⟩ (of_decide_eq_false (hnone a ha))
  | some j =>
    obtain ⟨hjlt, hfind⟩ := List.findIdx?_eq_some_iff_findIdx_eq.mp h
    have hpj : (fun s : Score =>
        decide (s.mode = mode ∧ s.difficulty = difficulty)) table[j]
          = true := by
      have hw : table.findIdx
          (fun s => s.mode = mode ∧ s.difficulty = difficulty) <
          table.length := by rw [hfind]; exact hjlt
      have := List.findIdx_getElem (w := hw)
      simp only [hfind] at this
      exact this
    have hkey : table[j].mode = mode ∧ table[j].difficulty = difficulty :=
      of_decide_eq_true hpj
    have huniq : ∀ i, (hi : i < table.length) →
        table[i].mode = mode → table[i].difficulty = difficulty → i = j := by
      intro i hi h1 h2
      by_contra hne
      have hpw := List.pairwise_iff_get.mp hU
      rcases Nat.lt_or_ge i j with hij | hij
      · exact hpw ⟨i, hi⟩ ⟨j, hjlt⟩ hij
          ⟨h1.trans hkey.1.symm, h2.trans hkey.2.symm⟩
      · have hji : j < i := lt_of_le_of_ne hij (fun hji => hne hji.symm)
        exact hpw ⟨j, hjlt⟩ ⟨i, hi⟩ hji
          ⟨hkey.1.trans h1.symm, hkey.2.trans h2.symm⟩
    have hgetD : table.getD j default = table[j] :=
      List.getD_eq_getElem table default hjlt
    have hupd : updateBestScores table mode difficulty finalScore timeLeft =
        if table[j].score < finalScore then
          table.set j (mkScoreEntry mode difficulty finalScore timeLeft)
        else table := by
      simp only [updateBestScores, h, hgetD]
    refine ⟨?_, ?_, ?_⟩
    · intro hall
      exact absurd hkey (hall table[j] (List.getElem_mem hjlt))
    · intro i hi h1 h2
      have hij : i = j := huniq i hi h1 h2
      subst hij
      constructor
      · intro hlt
        rw [hupd, if_pos hlt]
      · intro hge
        rw [hupd, if_neg (Nat.not_lt.mpr hge)]
    · rw [hupd]
      by_cases hlt : table[j].score < finalScore
      · rw [if_pos hlt]
        rw [uniqueKeys, List.pairwise_iff_get]
        intro a b hab
        simp only [List.get_eq_getElem, List.getElem_set, List.length_set]
        intro hk
        have ha : (a : Nat) < table.length := by
          have := a.isLt; simpa using this
        have hb : (b : Nat) < table.length := by
          have := b.isLt; simpa using this
        by_cases haj : j = (a : Nat)
        · rw [if_pos haj] at hk
          by_cases hbj : j = (b : Nat)
          · exact absurd (haj ▸ hbj.symm : (b : Nat) = (a : Nat))
              (Nat.ne_of_gt hab)
          · rw [if_neg hbj] at hk
            have : (b : Nat) = j :=
              huniq b hb (hk.1.symm.trans rfl) (hk.2.symm.trans rfl)
            exact hbj (this.symm)
        · rw [if_neg haj] at hk
          by_cases hbj : j = (b : Nat)
          · rw [if_pos hbj] at hk
            have : (a : Nat) = j := huniq a ha hk.1 hk.2
            exact haj this.symm
          · rw [if_neg hbj] at hk
            exact List.pairwise_iff_get.mp hU ⟨a, ha⟩ ⟨b, hb⟩ hab hk
      · rw [if_neg hlt]
        exact hU

/-- C4 witness: updating the empty table (trivially unique-keyed) appends
the new entry. -/
theorem C4_best_score_update_witness :
    updateBestScores [] .normal .facile 500 0 =
      [] ++ [mkScoreEntry .normal .facile 500 0] :=
  (C4_best_score_update [] .normal .facile 500 0 List.Pairwise.nil).1
    (by intro e he; exact absurd he (List.not_mem_nil e))

/-- The flipped-index bounds are preserved by every enabled event. -/
theorem flipInv_step {s : EngineState} (e : Event) (hI : FlipInv s)
    (he : enabledB s e = true) : FlipInv (stepF s e) := by
  obtain ⟨hmem, hlen⟩ := hI
  cases e with
  | selectMode m => exact ⟨hmem, hlen⟩
  | selectDifficulty d => exact ⟨hmem, hlen⟩
  | start deck =>
    refine ⟨?_, fun hne => absurd rfl hne⟩
    intro j hj
    exact List.mem_range.mp hj
  | previewEnd =>
    exact ⟨fun j hj => absurd hj (List.not_mem_nil j),
      fun _ => Nat.zero_le 2⟩
  | click i =>
    have hi : i < s.cards.length := of_decide_eq_true he
    show FlipInv (onCardClick s i)
    rw [onCardClick]
    by_cases hp : s.gameState = .playing
    · have hnp : s.gameState ≠ .preview := by
        rw [hp]; intro hh; cases hh
      rw [if_pos hp, handleCardClick]
      by_cases hg : s.isChecking = true
          ∨ (s.cards.getD i default).isMatched = true
          ∨ i ∈ s.flippedIndexes
          ∨ s.flippedIndexes.length = 2
      · rw [if_pos hg]; exact ⟨hmem, hlen⟩
      · rw [if_neg hg]
        dsimp only
        have h2 : s.flippedIndexes.length ≠ 2 :=
          fun hh => hg (Or.inr (Or.inr (Or.inr hh)))
        have hle : s.flippedIndexes.length ≤ 2 := hlen hnp
        have happ : (s.flippedIndexes ++ [i]).length =
            s.flippedIndexes.length + 1 := by
          rw [List.length_append, List.length_singleton]
        have hb : (s.flippedIndexes ++ [i]).length ≤ 2 := by omega
        have hmem1 : ∀ j ∈ s.flippedIndexes ++ [i], j < s.cards.length := by
          intro j hj
          rcases List.mem_append.mp hj with hj | hj
          · exact hmem j hj
          · rw [List.mem_singleton] at hj
            subst hj
            exact hi
        by_cases hl : (s.flippedIndexes ++ [i]).length = 2
        · rw [if_pos hl]
          split
          · exact ⟨hmem1, fun _ => hb⟩
          · exact ⟨hmem1, fun _ => hb⟩
        · rw [if_neg hl]
          exact ⟨hmem1, fun _ => hb⟩
    · rw [if_neg hp]
      exact ⟨hmem, hlen⟩
  | tick =>
    have hcond : s.gameState = .playing ∧ s.mode = .chrono ∧ 0 < s.timeLeft :=
      of_decide_eq_true he
    have hnp : s.gameState ≠ .preview := by
      rw [hcond.1]; intro hh; cases hh
    show FlipInv (chronoTick s)
    rw [chronoTick]
    dsimp only
    split
    · exact ⟨hmem, fun _ => hlen hnp⟩
    · exact ⟨hmem, fun _ => hlen hnp⟩
  | fire k =>
    show FlipInv (fireTimeout { s with pending := s.pending.eraseIdx k }
      (s.pending.getD k .mismatchT))
    cases s.pending.getD k .mismatchT with
    | mismatchT =>
      exact ⟨fun j hj => absurd hj (List.not_mem_nil j),
        fun _ => Nat.zero_le 2⟩
    | matchT ccards fi si cm cd cmc ctl cbs =>
      rw [fireTimeout]
      dsimp only
      split
      · exact ⟨fun j hj => absurd hj (List.not_mem_nil j),
          fun _ => Nat.zero_le 2⟩
      · exact ⟨fun j hj => absurd hj (List.not_mem_nil j),
          fun _ => Nat.zero_le 2⟩
  | rejouer =>
    have hfin : s.gameState = .finished := of_decide_eq_true he
    have hnp : s.gameState ≠ .preview := by
      rw [hfin]; intro hh; cases hh
    exact ⟨hmem, fun _ => hlen hnp⟩

/-- C7 counterexample: the state reached by starting a facile game from the
initial state is in the preview reveal and has all 12 deck indices flipped,
not at most 2. -/
theorem C7_counterexample_preview_all_flipped :
    Reachable (stepF (initState []) (.start (createCardsBase .facile))) ∧
    (stepF (initState [])
      (.start (createCardsBase .facile))).flippedIndexes.length = 12 ∧
    ¬ (stepF (initState [])
      (.start (createCardsBase .facile))).flippedIndexes.length ≤ 2 := by
  refine ⟨Reachable.step (.start (createCardsBase .facile))
    (Reachable.init []) (by decide), by decide, by decide⟩

/-- C7 amended: in every reachable state each flipped index lies inside the
deck, and outside the preview phase at most two indices are flipped (during
the preview reveal all deck indices are flipped). -/
theorem C7_flipped_bounded {s : EngineState} (h : Reachable s) :
    (∀ j ∈ s.flippedIndexes, j < s.cards.length) ∧
    (s.gameState ≠ .preview → s.flippedIndexes.length ≤ 2) := by
  induction h with
  | init bs =>
    exact ⟨fun j hj => absurd hj (List.not_mem_nil j), fun _ => Nat.zero_le 2⟩
  | step e hr hen ih => exact flipInv_step e ih hen

/-- C7 witness: the bounds at the initial state. -/
theorem C7_flipped_bounded_witness :
    (∀ j ∈ (initState []).flippedIndexes, j < (initState []).cards.length) ∧
    ((initState []).gameState ≠ .preview →
      (initState []).flippedIndexes.length ≤ 2) :=
  C7_flipped_bounded (Reachable.init [])

/-- C2, code evaluated at the failing input: an ordinary won normal/facile
game ends with matchedPairCount 6, yet the stored final score is 500 =
calculateScore(normal, facile, 5, 0) — not the claimed 600 =
calculateScore(normal, facile, 6, 0).  `endGame(true)` is invoked from
inside the `setMatches` updater and reads the render's stale `matches`
closure variable, one less than the count at the moment the game ends
(the live-score line of the finished render shows 600 next to the frozen
"Score final" of 500). -/
theorem C2_win_score_uses_stale_match_count :
    Reachable winState ∧
    winState.gameState = .finished ∧
    winState.matchCount = 6 ∧
    (DIFFICULTY_CONFIG winState.difficulty).pairs = 6 ∧
    winState.score = calculateScore .normal .facile 5 0 ∧
    winState.score = 500 ∧
    calculateScore .normal .facile 6 0 = 600 ∧
    winState.score ≠ calculateScore .normal .facile winState.matchCount
      winState.timeLeft := by
  refine ⟨reachable_runTrace eventsWinFacile (Reachable.init []) (by decide),
    by decide, by decide, by decide, by decide, by decide, by decide,
    by decide⟩

/-- C10, code evaluated at the failing input: the 500 ms match-confirm
timeout of a session is never cancelled, so when a chrono game is lost
while the confirmation is pending and the player restarts within those
500 ms, the stale callback fires into the fresh session: it reinstates the
captured previous deck with its two compared cards newly marked (four
matched cards in total) while the functional `setMatches` updater makes the
new session's matchedPairCount 1 — so the number of matched cards is 4,
not 2 × 1, and the matched invariant the claim states is broken. -/
theorem C10_stale_timeout_breaks_matched_invariant :
    Reachable staleState ∧
    staleState.matchCount = 1 ∧
    (staleState.cards.filter fun c => c.isMatched).length = 4 ∧
    (staleState.cards.filter fun c => c.isMatched).length ≠
      2 * staleState.matchCount := by
  refine ⟨reachable_runTrace eventsStaleTimeout (Reachable.init [])
    (by decide), by decide, by decide, by decide⟩
